import Mathlib

/-!
Shallow embedding of the chat staging / streaming core of `src/app.py`
(a FastAPI tutoring application).  The embedded parts are the `/api/chat`
stager (`chat`, lines 3037-3115), the eviction timer callback
(`cleanup_request_data`, lines 3093-3102), the `/api/chat/stream`
dispatcher (`chat_stream` and its inner generator `generate_response`,
lines 3117-3400) and the error mapper (`handle_api_error`,
lines 2619-2631).  The OpenAI streaming call is external: it is
modelled by an `Upstream` parameter carrying either the list of
incremental deltas or the raised error.  String literals are copied
byte-for-byte from the source file.
-/

namespace Plama

/-- `MAX_HISTORY` constant, app.py line 35. -/
def MAX_HISTORY : Nat := 20

/-- A conversation turn: plain text, or an image-bearing dict
`\x7btype: image, text, preview, file_name\x7d` as produced at
app.py lines 3143-3149. -/
inductive Turn where
  | text (s : String)
  | image (text preview file_name : String)
deriving DecidableEq

/-- The `image_data` dict of a chat message (`preview`, `file_name`
read at lines 3146-3148; Python `.get` defaults are folded into the
fields). -/
structure ImageData where
  preview : String
  file_name : String
deriving DecidableEq

/-- The `ChatMessage` pydantic model (app.py lines 70-74), restricted to
the fields the staged flow reads: `text` and `image_data`. -/
structure ChatMessage where
  text : String
  image_data : Option ImageData
deriving DecidableEq

/-- The `conversation_memory` dict with its default shape
(app.py lines 3195-3200). -/
structure ConversationMemory where
  topics : List String
  user_questions : List String
  misconceptions : List String
  strengths : List String
  weaknesses : List String
deriving DecidableEq

/-- Default (empty) conversation memory. -/
def defaultMemory : ConversationMemory := ⟨[], [], [], [], []⟩

/-- The `api_state` dict, restricted to the keys the staged flow reads:
`is_valid` (line 3051), `scientist_key` (line 3165), and
`conversation_memory` (line 3194).  Python `.get` defaults are folded
into the fields; a missing or empty dict is `Option.none` at use sites. -/
structure ApiState where
  is_valid : Bool
  scientist_key : String
  conversation_memory : ConversationMemory
deriving DecidableEq

/-- Truthiness test `api_state and api_state.get('is_valid', False)`
(app.py line 3051): an absent or empty dict is falsy. -/
def stateValid : Option ApiState → Bool
  | none => false
  | some st => st.is_valid

/-- The payload stored in `CHAT_REQUESTS` (app.py lines 3081-3089). -/
structure ChatData where
  history : List Turn
  api_state : Option ApiState
  grade : String
  topic : String
  message : ChatMessage
  timestamp : String
deriving DecidableEq

/-- The global dict `CHAT_REQUESTS` (app.py line 39), embedded as an
association list with Python-dict operations below. -/
abbrev Table := List (String × ChatData)

/-- Dict lookup `CHAT_REQUESTS[k]` / `k in CHAT_REQUESTS`. -/
def Table.lookup : Table → String → Option ChatData
  | [], _ => none
  | (k, v) :: rest, key => if k = key then some v else Table.lookup rest key

/-- Membership test `k in CHAT_REQUESTS`. -/
def Table.contains (t : Table) (key : String) : Bool :=
  (t.lookup key).isSome

/-- Dict assignment `CHAT_REQUESTS[k] = v`: replaces an existing entry
for `k`, otherwise appends a new one. -/
def Table.setEntry : Table → String → ChatData → Table
  | [], key, v => [(key, v)]
  | (k, w) :: rest, key, v =>
      if k = key then (k, v) :: rest else (k, w) :: Table.setEntry rest key v

/-- Dict deletion `del CHAT_REQUESTS[k]`. -/
def Table.erase : Table → String → Table
  | [], _ => []
  | (k, v) :: rest, key =>
      if k = key then Table.erase rest key else (k, v) :: Table.erase rest key

/-- In-place field update `CHAT_REQUESTS[k]['field'] = ...` on a present
entry (app.py lines 3360-3361 and 3369). -/
def Table.updateEntry : Table → String → (ChatData → ChatData) → Table
  | [], _, _ => []
  | (k, v) :: rest, key, f =>
      if k = key then (k, f v) :: rest else (k, v) :: Table.updateEntry rest key f

/-- Keys of the table, for the at-most-one-entry-per-key invariant. -/
def Table.keys (t : Table) : List String := t.map (·.1)

/-- Key construction: the stored key is the f-string `CHAT_REQ_\x7brequest_id\x7d`. -/
def chatKey (request_id : String) : String := "CHAT_REQ_" ++ request_id

/-- The `ChatRequest` pydantic model (app.py lines 76-82), restricted to
the fields the staged flow reads. -/
structure ChatRequest where
  history : List Turn
  api_state : Option ApiState
  grade : String
  topic : String
  message : ChatMessage
  request_id : Option String
deriving DecidableEq

/-- `request_id = request_data.request_id or str(int(time.time()))`
(app.py line 3046): a missing or empty client key falls back to the
current Unix time in whole seconds. -/
def genRequestId (req : ChatRequest) (now : Nat) : String :=
  match req.request_id with
  | some s => if s = "" then toString now else s
  | none => toString now

/-- Result dict of the `/api/chat` endpoint: either
`\x7bstatus: error, message\x7d` or
`\x7bstatus: success, message, request_id\x7d`. -/
inductive ChatResult where
  | error (message : String)
  | success (message : String) (request_id : String)
deriving DecidableEq

/-- The one-shot `threading.Timer(300, cleanup_request_data)` armed at
staging time (app.py lines 3099-3101). -/
structure EvictionTimer where
  delay : Nat
  request_id : String
deriving DecidableEq

/-- Full effect of one `/api/chat` call: the returned JSON, the table
afterwards, and the timer armed (if any). -/
structure StageOutcome where
  status : ChatResult
  table : Table
  timer : Option EvictionTimer
deriving DecidableEq

/-- The `chat_data` payload built at app.py lines 3081-3089. -/
def mkChatData (req : ChatRequest) (timestamp : String) : ChatData :=
  { history := req.history
    api_state := req.api_state
    grade := req.grade
    topic := req.topic
    message := req.message
    timestamp := timestamp }

/-- The `/api/chat` stager (app.py lines 3037-3115).  `now` stands for
`int(time.time())` and `timestamp` for `datetime.now().isoformat()`.
The graph / calculator3d branches (lines 3065-3078) only log and are
omitted; the outer `except` is unreachable for this pure translation. -/
def chat (t : Table) (req : ChatRequest) (now : Nat) (timestamp : String) :
    StageOutcome :=
  let request_id := genRequestId req now
  if !(stateValid req.api_state) then
    { status := .error "‚ö†Ô∏è Please restart the system"
      table := t
      timer := none }
  else if MAX_HISTORY * 2 ≤ req.history.length then
    { status := .error "‚ö†Ô∏è Maximum conversation limit reached. Please start a new conversation"
      table := t
      timer := none }
  else
    { status := .success "Data received successfully" request_id
      table := t.setEntry (chatKey request_id) (mkChatData req timestamp)
      timer := some { delay := 300, request_id := request_id } }

/-- The eviction timer callback `cleanup_request_data`
(app.py lines 3093-3097): check-and-delete of its own key only. -/
def cleanup_request_data (t : Table) (request_id : String) : Table :=
  if t.contains (chatKey request_id) then t.erase (chatKey request_id) else t

/-- A scientist persona entry of `MATHEMATICS_SCIENTISTS`, restricted to
the fields `generate_response` reads. -/
structure Scientist where
  display_name : String
  icon : String
  teaching_style : String
deriving DecidableEq

/-- `scientist_key and scientist_key != 'none' and scientist_key in
MATHEMATICS_SCIENTISTS` (app.py lines 3169 and 3303), with the persona
table passed as a parameter. -/
def lookupScientist (scientists : List (String × Scientist)) (key : String) :
    Option Scientist :=
  if key = "" ∨ key = "none" then none
  else
    match scientists.find? (fun p => p.1 == key) with
    | some p => some p.2
    | none => none

/-- One server-sent event of the stream (the JSON payloads of app.py
lines 3183, 3325, 3364, 3371, 3385 and 3398). -/
inductive Event where
  | thinking (content : String)
  | chunk (content : String)
  | done (content : String) (updated_memory : ConversationMemory)
      (scientist_key : String)
  | error (content : String)
deriving DecidableEq

/-- `handle_api_error` (app.py lines 2619-2631).  `str(error)` of a
generic exception is the carried message. -/
inductive ApiError where
  | rate_limit
  | api_connection
  | api_status (status_code : Nat) (message : String)
  | other (text : String)
deriving DecidableEq

def handle_api_error : ApiError → String
  | .rate_limit => "‚ö†Ô∏è API rate limit exceeded. Please wait and try again"
  | .api_connection => "‚ö†Ô∏è Connection error. Please check your internet connection"
  | .api_status code msg => "‚ö†Ô∏è API error: " ++ toString code ++ " - " ++ msg
  | .other s => "‚ö†Ô∏è API error: " ++ s

/-- Outcome of the external streaming completion call
(app.py lines 3312-3318): the per-chunk `delta.content` values
(possibly `None`) on success, or the raised error. -/
inductive Upstream where
  | ok (deltas : List (Option String))
  | fail (e : ApiError)
deriving DecidableEq

/-- Substring test, Python `kw in msg`. -/
def strContains (s pat : String) : Bool :=
  decide (pat.toList <:+: s.toList)

/-- The `math_topics` keyword dict (app.py lines 3335-3343), in source
order. -/
def math_topics : List (String × List String) :=
  [ ("Algebra", ["algebra", "equation", "variable", "solve", "‡∏û‡∏µ‡∏ä‡∏Ñ‡∏ì‡∏¥‡∏ï", "‡∏™‡∏°‡∏Å‡∏≤‡∏£", "‡∏ï‡∏±‡∏ß‡πÅ‡∏õ‡∏£"])
  , ("Geometry", ["geometry", "shape", "angle", "line", "area", "volume", "‡πÄ‡∏£‡∏Ç‡∏≤‡∏Ñ‡∏ì‡∏¥‡∏ï", "‡∏£‡∏π‡∏õ‡∏£‡πà‡∏≤‡∏á", "‡∏°‡∏∏‡∏°", "‡πÄ‡∏™‡πâ‡∏ô", "‡∏û‡∏∑‡πâ‡∏ô‡∏ó‡∏µ‡πà", "‡∏õ‡∏£‡∏¥‡∏°‡∏≤‡∏ï‡∏£"])
  , ("Calculus", ["derivative", "integral", "limit", "‡πÅ‡∏Ñ‡∏•‡∏Ñ‡∏π‡∏•‡∏±‡∏™", "‡∏≠‡∏ô‡∏∏‡∏û‡∏±‡∏ô‡∏ò‡πå", "‡∏õ‡∏£‡∏¥‡∏û‡∏±‡∏ô‡∏ò‡πå"])
  , ("Statistics", ["statistics", "mean", "median", "mode", "deviation", "‡∏™‡∏ñ‡∏¥‡∏ï‡∏¥", "‡∏Ñ‡πà‡∏≤‡πÄ‡∏â‡∏•‡∏µ‡πà‡∏¢", "‡∏°‡∏±‡∏ò‡∏¢‡∏ê‡∏≤‡∏ô", "‡∏ê‡∏≤‡∏ô‡∏ô‡∏¥‡∏¢‡∏°"])
  , ("Probability", ["probability", "chance", "random", "‡∏Ñ‡∏ß‡∏≤‡∏°‡∏ô‡πà‡∏≤‡∏à‡∏∞‡πÄ‡∏õ‡πá‡∏ô", "‡πÇ‡∏≠‡∏Å‡∏≤‡∏™", "‡∏™‡∏∏‡πà‡∏°"])
  , ("Trigonometry", ["sin", "cos", "tan", "angle", "trigonometry", "‡∏ï‡∏£‡∏µ‡πÇ‡∏Å‡∏ì‡∏°‡∏¥‡∏ï‡∏¥", "‡∏°‡∏∏‡∏°"])
  , ("Number Systems", ["integer", "rational", "real", "number", "‡∏à‡∏≥‡∏ô‡∏ß‡∏ô‡πÄ‡∏ï‡πá‡∏°", "‡∏à‡∏≥‡∏ô‡∏ß‡∏ô‡∏ï‡∏£‡∏£‡∏Å‡∏¢‡∏∞", "‡∏à‡∏≥‡∏ô‡∏ß‡∏ô‡∏à‡∏£‡∏¥‡∏á"]) ]

/-- Topic scan of the memory update (app.py lines 3345-3348). -/
def update_topics (topics : List String) (msg : String) : List String :=
  math_topics.foldl
    (fun acc tk =>
      if tk.2.any (fun kw => strContains msg kw) then
        if acc.contains tk.1 then acc else acc ++ [tk.1]
      else acc)
    topics

/-- Memory update for a plain-string last user message
(app.py lines 3330-3355): lowercase, topic scan, and the capped
`user_questions` append of the first 100 characters. -/
def update_conversation_memory (mem : ConversationMemory)
    (last_user_message : String) : ConversationMemory :=
  let msg := last_user_message.toLower
  { mem with
    topics := update_topics mem.topics msg
    user_questions :=
      if mem.user_questions.length < 5 then mem.user_questions ++ [msg.take 100]
      else mem.user_questions }

/-- The message appended to history at dispatch time
(app.py lines 3141-3150): an image dict when `image_data` is truthy,
otherwise the plain text. -/
def newUserMessage (user_text : String) (image_data : Option ImageData) : Turn :=
  match image_data with
  | some img => Turn.image user_text img.preview img.file_name
  | none => Turn.text user_text

/-- The dedup-guarded append of the new user message
(app.py lines 3136-3150): skipped when the last history element is an
image dict, or is a string equal to the new text. -/
def appendUserMessage (history : List Turn) (user_text : String)
    (image_data : Option ImageData) : List Turn :=
  match history.getLast? with
  | some (Turn.image _ _ _) => history
  | some (Turn.text s) =>
      if s = user_text then history
      else history ++ [newUserMessage user_text image_data]
  | none => history ++ [newUserMessage user_text image_data]

/-- `full_response` accumulation over the received deltas
(app.py lines 3320-3325). -/
def concatStrings : List String → String
  | [] => ""
  | s :: rest => s ++ concatStrings rest

/-- Events yielded by one run of `generate_response`, together with the
table left behind after its `finally` block. -/
structure GenResult where
  events : List Event
  table : Table
deriving DecidableEq

/-- The generator `generate_response` (app.py lines 3161-3400).
Takes the table at generator start, the staged history after the
dispatch-time append, and the staged `api_state`; the upstream call is
the `Upstream` parameter.  The image-expansion of the outbound message
list (lines 3227-3300) only feeds the external call and carries no
event or table effect, so it is folded into `Upstream`. -/
def generate_response (scientists : List (String × Scientist)) (t : Table)
    (request_id : String) (history : List Turn) (api_state : Option ApiState)
    (upstream : Upstream) : GenResult :=
  let scientist_key :=
    match api_state with
    | some st => st.scientist_key
    | none => "none"
  let thinking1 := Event.thinking
    (match lookupScientist scientists scientist_key with
     | some sc =>
         sc.icon ++ " " ++ sc.display_name ++
           " is contemplating this mathematics problem..."
     | none => "üí≠ Analyzing and preparing response...")
  let thinking2 := Event.thinking
    (match lookupScientist scientists scientist_key with
     | some sc =>
         sc.icon ++ " " ++ sc.display_name ++
           " is formulating a response using " ++ sc.teaching_style ++ "..."
     | none => "üí≠ Processing your question...")
  match upstream with
  | .ok deltas =>
      let contents := deltas.filterMap id
      let full_response := concatStrings contents
      let history2 := history ++ [Turn.text full_response]
      let mem0 :=
        match api_state with
        | some st => st.conversation_memory
        | none => defaultMemory
      let mem :=
        match history.getLast? with
        | some (Turn.text s) => update_conversation_memory mem0 s
        | _ => mem0
      let new_state :=
        match api_state with
        | some st => some { st with conversation_memory := mem }
        | none => none
      let t2 :=
        (t.updateEntry (chatKey request_id) (fun d => { d with history := history2 })).updateEntry
          (chatKey request_id) (fun d => { d with api_state := new_state })
      let events :=
        [thinking1, thinking2] ++ contents.map Event.chunk ++
          [Event.done full_response mem scientist_key]
      { events := events
        table :=
          if t2.contains (chatKey request_id) then t2.erase (chatKey request_id)
          else t2 }
  | .fail e =>
      let error_msg := handle_api_error e
      let history2 := history ++ [Turn.text error_msg]
      let t2 :=
        t.updateEntry (chatKey request_id) (fun d => { d with history := history2 })
      { events := [thinking1, thinking2, Event.error error_msg]
        table :=
          if t2.contains (chatKey request_id) then t2.erase (chatKey request_id)
          else t2 }

/-- Response of the `/api/chat/stream` endpoint: an immediate JSON error
with no stream, or a stream of events. -/
inductive DispatchResult where
  | rejected (message : String)
  | streamed (events : List Event)
deriving DecidableEq

/-- Full effect of one `/api/chat/stream` call: the response, the table
at the moment the event stream starts (after the lookup and the aliased
history append, before any event is produced), and the table after the
stream has ended. -/
structure DispatchTrace where
  result : DispatchResult
  tableAtStreamStart : Table
  finalTable : Table
deriving DecidableEq

/-- The `/api/chat/stream` dispatcher `chat_stream`
(app.py lines 3117-3400).  The lookup at line 3120 does not remove the
entry; `history.append` at line 3159 mutates the staged list in place,
modelled by the `updateEntry` producing `t1`. -/
def chat_stream (scientists : List (String × Scientist)) (t : Table)
    (request_id : String) (upstream : Upstream) : DispatchTrace :=
  match (if request_id == "" then none else t.lookup (chatKey request_id)) with
  | none =>
      { result := .rejected "‚ö†Ô∏è Invalid or expired request. Please try again"
        tableAtStreamStart := t
        finalTable := t }
  | some data =>
      let user_text := data.message.text.trim
      let image_data := data.message.image_data
      let history := appendUserMessage data.history user_text image_data
      let t1 := t.updateEntry (chatKey request_id)
        (fun d => { d with history := history })
      let g := generate_response scientists t1 request_id history
        data.api_state upstream
      { result := .streamed g.events
        tableAtStreamStart := t1
        finalTable := g.table }

/-- Terminal events: `done` and `error`. -/
def Event.isTerminal : Event → Bool
  | .done _ _ _ => true
  | .error _ => true
  | _ => false

/-- Content of a `chunk` event, `none` for the other kinds. -/
def Event.chunkContent : Event → Option String
  | .chunk c => some c
  | _ => none

/-- Concatenation of the `chunk` contents of an event list, in emission
order. -/
def chunkConcat : List Event → String
  | [] => ""
  | e :: rest =>
      match e with
      | Event.chunk c => c ++ chunkConcat rest
      | _ => chunkConcat rest

end Plama

namespace Plama

/-- Membership of a streamed (non-rejected) dispatch response. -/
def DispatchResult.isStreamed : DispatchResult → Bool
  | .streamed _ => true
  | _ => false

/-- The staged history after the dispatch-time append (app.py line 3159). -/
def dispatchedHistory (data : ChatData) : List Turn :=
  appendUserMessage data.history data.message.text.trim data.message.image_data

/-- The table after the aliased in-place history append at dispatch
time. -/
def dispatchedTable (t : Table) (rid : String) (data : ChatData) : Table :=
  t.updateEntry (chatKey rid) (fun d => { d with history := dispatchedHistory data })

/-- A usable configuration, for concrete test inputs. -/
def validState : ApiState :=
  { is_valid := true, scientist_key := "none", conversation_memory := defaultMemory }

/-- A concrete staging request carrying the client-supplied key k. -/
def reqK : ChatRequest :=
  { history := []
    api_state := some validState
    grade := "m1"
    topic := "algebra"
    message := { text := "hi", image_data := none }
    request_id := some "k" }

/-- The table after staging reqK into an empty table. -/
def tK : Table := (chat [] reqK 5 "ts").table

/-- A second staging request reusing the same key k with a different
payload. -/
def reqB : ChatRequest :=
  { reqK with message := { text := "something else", image_data := none } }

/-- A request whose history already holds 40 turns (the configured
maximum) and whose configuration is missing. -/
def req40 : ChatRequest :=
  { history := List.replicate 40 (Turn.text "x")
    api_state := none
    grade := "m1"
    topic := "algebra"
    message := { text := "hi", image_data := none }
    request_id := some "k2" }

/-- The request req40 with a usable configuration. -/
def req40v : ChatRequest := { req40 with api_state := some validState }

/-- A request with a missing configuration dict. -/
def reqInvalidState : ChatRequest := { reqK with api_state := none }

theorem lookup_setEntry_self (t : Table) (k : String) (v : ChatData) :
    (t.setEntry k v).lookup k = some v := by
  induction t with
  | nil => simp [Table.setEntry, Table.lookup]
  | cons hd tl ih =>
      by_cases h : hd.1 = k
      · simp [Table.setEntry, Table.lookup, h]
      · simp [Table.setEntry, Table.lookup, h, ih]

theorem lookup_setEntry_ne (t : Table) (k k' : String) (v : ChatData)
    (h : k' ≠ k) : (t.setEntry k v).lookup k' = t.lookup k' := by
  induction t with
  | nil => simp [Table.setEntry, Table.lookup, Ne.symm h]
  | cons hd tl ih =>
      obtain ⟨a, w⟩ := hd
      by_cases hk : a = k
      · simp [Table.setEntry, Table.lookup, hk, Ne.symm h]
      · by_cases ha : a = k'
        · simp [Table.setEntry, Table.lookup, hk, ha, h]
        · simp [Table.setEntry, Table.lookup, hk, ha, ih]

theorem lookup_erase_self (t : Table) (k : String) :
    (t.erase k).lookup k = none := by
  induction t with
  | nil => simp [Table.erase, Table.lookup]
  | cons hd tl ih =>
      by_cases h : hd.1 = k
      · simp [Table.erase, h, ih]
      · simp [Table.erase, Table.lookup, h, ih]

theorem lookup_erase_ne (t : Table) (k k' : String) (h : k' ≠ k) :
    (t.erase k).lookup k' = t.lookup k' := by
  induction t with
  | nil => simp [Table.erase]
  | cons hd tl ih =>
      obtain ⟨a, w⟩ := hd
      by_cases hk : a = k
      · simp [Table.erase, Table.lookup, hk, Ne.symm h, ih]
      · simp [Table.erase, Table.lookup, hk, ih]

theorem lookup_updateEntry_self (t : Table) (k : String) (f : ChatData → ChatData) :
    (t.updateEntry k f).lookup k = (t.lookup k).map f := by
  induction t with
  | nil => simp [Table.updateEntry, Table.lookup]
  | cons hd tl ih =>
      by_cases h : hd.1 = k
      · simp [Table.updateEntry, Table.lookup, h]
      · simp [Table.updateEntry, Table.lookup, h, ih]

theorem lookup_not_contains (t : Table) (k : String)
    (h : t.contains k = false) : t.lookup k = none := by
  cases hl : t.lookup k with
  | none => rfl
  | some v => simp [Table.contains, hl] at h

theorem lookup_eraseIf_self (t : Table) (k : String) :
    Table.lookup (if t.contains k then t.erase k else t) k = none := by
  by_cases ht : t.contains k = true
  · simp [ht, lookup_erase_self]
  · have ht' : t.contains k = false := by simpa using ht
    simp [ht', lookup_not_contains t k ht']

theorem contains_iff_mem_keys (t : Table) (k : String) :
    t.contains k = true ↔ k ∈ t.keys := by
  induction t with
  | nil => simp [Table.contains, Table.lookup, Table.keys]
  | cons hd tl ih =>
      obtain ⟨a, w⟩ := hd
      by_cases hk : a = k
      · subst hk
        simp [Table.contains, Table.lookup, Table.keys]
      · have hk' : ¬ k = a := fun hh => hk hh.symm
        simpa [Table.contains, Table.lookup, Table.keys, hk, hk'] using ih

theorem keys_setEntry (t : Table) (k : String) (v : ChatData) :
    (t.setEntry k v).keys = if t.contains k then t.keys else t.keys ++ [k] := by
  induction t with
  | nil => simp [Table.setEntry, Table.keys, Table.contains, Table.lookup]
  | cons hd tl ih =>
      obtain ⟨a, w⟩ := hd
      by_cases hk : a = k
      · simp [Table.setEntry, hk, Table.keys, Table.contains, Table.lookup]
      · have hcontains : Table.contains ((a, w) :: tl) k = Table.contains tl k := by
          simp [Table.contains, Table.lookup, hk]
        rw [show Table.setEntry ((a, w) :: tl) k v = (a, w) :: Table.setEntry tl k v from by
          simp [Table.setEntry, hk]]
        rw [show Table.keys ((a, w) :: Table.setEntry tl k v)
          = a :: Table.keys (Table.setEntry tl k v) from rfl]
        rw [ih, hcontains]
        rw [show Table.keys ((a, w) :: tl) = a :: Table.keys tl from rfl]
        by_cases hc : Table.contains tl k = true
        · simp [hc]
        · simp [hc]

theorem keys_setEntry_nodup (t : Table) (k : String) (v : ChatData)
    (h : t.keys.Nodup) : ((t.setEntry k v).keys).Nodup := by
  rw [keys_setEntry]
  by_cases hc : t.contains k = true
  · simpa [hc] using h
  · have hc' : t.contains k = false := by simpa using hc
    have hk : k ∉ t.keys := by
      intro hmem
      have hcm := (contains_iff_mem_keys t k).mpr hmem
      rw [hc'] at hcm
      simp at hcm
    simp [hc', List.nodup_append, h, hk]

theorem chunkConcat_mapChunk_done (l : List String) (c : String)
    (m : ConversationMemory) (k : String) :
    chunkConcat (l.map Event.chunk ++ [Event.done c m k]) = concatStrings l := by
  induction l with
  | nil => rfl
  | cons hd tl ih => simp [chunkConcat, concatStrings, ih]

theorem filterMap_chunkContent_mapChunk (l : List String) :
    (l.map Event.chunk).filterMap Event.chunkContent = l := by
  induction l with
  | nil => rfl
  | cons hd tl ih => simp [Event.chunkContent, ih]

theorem filterMap_chunkContent_comp (l : List String) :
    List.filterMap (Event.chunkContent ∘ Event.chunk) l = l := by
  induction l with
  | nil => rfl
  | cons hd tl ih => simp [List.filterMap_cons, Event.chunkContent, Function.comp, ih]

theorem mem_mapChunk_not_terminal (l : List String) (x : Event)
    (h : x ∈ l.map Event.chunk) : x.isTerminal = false := by
  rcases List.mem_map.mp h with ⟨c, _, rfl⟩
  rfl

/-- Rejection of an absent key, shared shape lemma for the dispatcher. -/
theorem chat_stream_absent (scientists : List (String × Scientist)) (t : Table)
    (rid : String) (u : Upstream) (h : t.lookup (chatKey rid) = none) :
    chat_stream scientists t rid u =
      { result := .rejected "‚ö†Ô∏è Invalid or expired request. Please try again"
        tableAtStreamStart := t
        finalTable := t } := by
  by_cases hr : rid == ""
  · simp [chat_stream, hr]
  · simp [chat_stream, hr, h]

/-- Shape of a present-key dispatch, shared lemma. -/
theorem chat_stream_present (scientists : List (String × Scientist)) (t : Table)
    (rid : String) (u : Upstream) (data : ChatData) (h1 : rid ≠ "")
    (h2 : t.lookup (chatKey rid) = some data) :
    chat_stream scientists t rid u =
      { result := .streamed (generate_response scientists (dispatchedTable t rid data)
          rid (dispatchedHistory data) data.api_state u).events
        tableAtStreamStart := dispatchedTable t rid data
        finalTable := (generate_response scientists (dispatchedTable t rid data)
          rid (dispatchedHistory data) data.api_state u).table } := by
  have hr : (rid == "") = false := by simpa using h1
  simp [chat_stream, hr, h2, dispatchedTable, dispatchedHistory]

theorem generate_response_ok_events (scientists : List (String × Scientist))
    (t : Table) (rid : String) (history : List Turn) (st : Option ApiState)
    (deltas : List (Option String)) :
    ∃ s1 s2 mem sk,
      (generate_response scientists t rid history st (Upstream.ok deltas)).events =
        [Event.thinking s1, Event.thinking s2] ++
          (deltas.filterMap id).map Event.chunk ++
          [Event.done (concatStrings (deltas.filterMap id)) mem sk] :=
  ⟨_, _, _, _, rfl⟩

theorem generate_response_fail_events (scientists : List (String × Scientist))
    (t : Table) (rid : String) (history : List Turn) (st : Option ApiState)
    (e : ApiError) :
    ∃ s1 s2,
      (generate_response scientists t rid history st (Upstream.fail e)).events =
        [Event.thinking s1, Event.thinking s2, Event.error (handle_api_error e)] :=
  ⟨_, _, rfl⟩

theorem generate_response_table_lookup (scientists : List (String × Scientist))
    (t : Table) (rid : String) (history : List Turn) (st : Option ApiState)
    (u : Upstream) :
    Table.lookup (generate_response scientists t rid history st u).table
      (chatKey rid) = none := by
  cases u with
  | ok deltas => exact lookup_eraseIf_self _ _
  | fail e => exact lookup_eraseIf_self _ _

theorem chat_success (t : Table) (req : ChatRequest) (now : Nat) (ts : String)
    (h1 : stateValid req.api_state = true)
    (h2 : ¬ MAX_HISTORY * 2 ≤ req.history.length) :
    chat t req now ts =
      { status := .success "Data received successfully" (genRequestId req now)
        table := t.setEntry (chatKey (genRequestId req now)) (mkChatData req ts)
        timer := some { delay := 300, request_id := genRequestId req now } } := by
  simp [chat, h1, h2]

theorem appendUserMessage_getLast (history : List Turn) (txt : String)
    (img : Option ImageData) :
    ∃ last, (appendUserMessage history txt img).getLast? = some last ∧
      ((∃ te pv fn, last = Turn.image te pv fn) ∨ last = Turn.text txt) := by
  cases hl : history.getLast? with
  | none =>
      refine ⟨newUserMessage txt img, ?_, ?_⟩
      · simp [appendUserMessage, hl, List.getLast?_concat]
      · cases img with
        | none => exact Or.inr rfl
        | some i => exact Or.inl ⟨txt, i.preview, i.file_name, rfl⟩
  | some last0 =>
      cases last0 with
      | image te pv fn =>
          exact ⟨Turn.image te pv fn, by simp [appendUserMessage, hl],
            Or.inl ⟨te, pv, fn, rfl⟩⟩
      | text s =>
          by_cases hs : s = txt
          · subst hs
            exact ⟨Turn.text s, by simp [appendUserMessage, hl], Or.inr rfl⟩
          · refine ⟨newUserMessage txt img, ?_, ?_⟩
            · simp [appendUserMessage, hl, hs, List.getLast?_concat]
            · cases img with
              | none => exact Or.inr rfl
              | some i => exact Or.inl ⟨txt, i.preview, i.file_name, rfl⟩

theorem appendUserMessage_idem (history : List Turn) (txt : String)
    (img : Option ImageData) :
    appendUserMessage (appendUserMessage history txt img) txt img =
      appendUserMessage history txt img := by
  obtain ⟨last, hl, hcase⟩ := appendUserMessage_getLast history txt img
  set h2 := appendUserMessage history txt img with hh
  rcases hcase with ⟨te, pv, fn, rfl⟩ | rfl
  · simp [appendUserMessage, hl]
  · simp [appendUserMessage, hl]

/-- C1 counterexample: the claim says the dispatcher removes the pending
entry before streaming begins, so that a concurrent second dispatch
observes it absent.  On the code, after staging reqK under key k, the
table at stream start still contains the entry, and a second dispatch
attempt started from that table also opens a stream instead of
reporting invalid-or-expired. -/
theorem C1_counterexample :
    Table.contains tK (chatKey "k") = true ∧
    Table.contains (chat_stream [] tK "k" (Upstream.ok [some "a"])).tableAtStreamStart
      (chatKey "k") = true ∧
    DispatchResult.isStreamed (chat_stream []
      (chat_stream [] tK "k" (Upstream.ok [some "a"])).tableAtStreamStart "k"
      (Upstream.ok [])).result = true :=
  ⟨rfl, rfl, rfl⟩

/-- C1 (amended): the dispatcher reads the pending entry without
removing it — the entry is still present when streaming starts — and
only deletes it in the terminal cleanup after the stream ends; a
dispatch attempt made after stream completion observes the entry
absent and is rejected with the invalid-or-expired message. -/
theorem C1_consumption_at_stream_end (scientists : List (String × Scientist))
    (t : Table) (rid : String) (data : ChatData) (u u2 : Upstream)
    (h1 : rid ≠ "") (h2 : Table.lookup t (chatKey rid) = some data) :
    Table.contains (chat_stream scientists t rid u).tableAtStreamStart
      (chatKey rid) = true ∧
    Table.lookup (chat_stream scientists t rid u).finalTable (chatKey rid) = none ∧
    chat_stream scientists (chat_stream scientists t rid u).finalTable rid u2 =
      { result := .rejected "‚ö†Ô∏è Invalid or expired request. Please try again"
        tableAtStreamStart := (chat_stream scientists t rid u).finalTable
        finalTable := (chat_stream scientists t rid u).finalTable } := by
  have hp := chat_stream_present scientists t rid u data h1 h2
  have hfin : Table.lookup (chat_stream scientists t rid u).finalTable
      (chatKey rid) = none := by
    rw [hp]
    exact generate_response_table_lookup _ _ _ _ _ _
  refine ⟨?_, hfin, chat_stream_absent _ _ _ _ hfin⟩
  rw [hp]
  simp [dispatchedTable, Table.contains, lookup_updateEntry_self, h2]

/-- C1 witness: concrete instance of the amended claim at the staged
table tK. -/
theorem C1_witness :
    Table.lookup tK (chatKey "k") = some (mkChatData reqK "ts") ∧
    Table.lookup (chat_stream [] tK "k" (Upstream.ok [some "a"])).finalTable
      (chatKey "k") = none :=
  ⟨rfl, (C1_consumption_at_stream_end [] tK "k" (mkChatData reqK "ts")
    (Upstream.ok [some "a"]) (Upstream.ok []) (by decide) rfl).2.1⟩

/-- C2 counterexample: a submission whose history already has 40 turns
but whose configuration is missing is answered with the
restart-the-system error, not the history-limit error, because the
configuration check runs first. -/
theorem C2_counterexample :
    MAX_HISTORY * 2 ≤ req40.history.length ∧
    (chat [] req40 0 "t0").status ≠
      ChatResult.error "‚ö†Ô∏è Maximum conversation limit reached. Please start a new conversation" := by
  refine ⟨by decide, by decide⟩

/-- C2 (amended): for every chat submission whose configuration is
valid and whose history length has reached MAX_HISTORY * 2 (with
MAX_HISTORY = 20), staging returns the history-limit error, inserts
nothing into the pending table, and schedules no eviction timer. -/
theorem C2_history_limit (t : Table) (req : ChatRequest) (now : Nat) (ts : String)
    (h1 : stateValid req.api_state = true)
    (h2 : MAX_HISTORY * 2 ≤ req.history.length) :
    chat t req now ts =
      { status := .error "‚ö†Ô∏è Maximum conversation limit reached. Please start a new conversation"
        table := t
        timer := none } := by
  simp [chat, h1, h2]

/-- C2 witness: the amended claim at the concrete full-history request
with a usable configuration. -/
theorem C2_witness :
    stateValid req40v.api_state = true ∧
    MAX_HISTORY * 2 ≤ req40v.history.length ∧
    (chat [] req40v 0 "t0").status =
      ChatResult.error "‚ö†Ô∏è Maximum conversation limit reached. Please start a new conversation" := by
  refine ⟨rfl, by decide, ?_⟩
  rw [C2_history_limit [] req40v 0 "t0" rfl (by decide)]

/-- C3: for every dispatched stream whose upstream call succeeds, the
chunk events carry exactly the arriving text fragments in arrival
order, and their concatenation equals the content of the terminal done
event. -/
theorem C3_chunk_ordering_and_reconstruction (scientists : List (String × Scientist))
    (t : Table) (rid : String) (data : ChatData) (deltas : List (Option String))
    (h1 : rid ≠ "") (h2 : Table.lookup t (chatKey rid) = some data) :
    ∃ evs mem sk,
      (chat_stream scientists t rid (Upstream.ok deltas)).result = .streamed evs ∧
      evs.filterMap Event.chunkContent = deltas.filterMap id ∧
      evs.getLast? = some (Event.done (chunkConcat evs) mem sk) := by
  have hp := chat_stream_present scientists t rid (Upstream.ok deltas) data h1 h2
  obtain ⟨s1, s2, mem, sk, he⟩ :=
    generate_response_ok_events scientists (dispatchedTable t rid data) rid
      (dispatchedHistory data) data.api_state deltas
  refine ⟨[Event.thinking s1, Event.thinking s2] ++
      (deltas.filterMap id).map Event.chunk ++
      [Event.done (concatStrings (deltas.filterMap id)) mem sk], mem, sk, ?_, ?_, ?_⟩
  · rw [hp, he]
  · simp [List.filterMap_append, Event.chunkContent, filterMap_chunkContent_comp]
  · have hcc : chunkConcat ([Event.thinking s1, Event.thinking s2] ++
        (deltas.filterMap id).map Event.chunk ++
        [Event.done (concatStrings (deltas.filterMap id)) mem sk]) =
        concatStrings (deltas.filterMap id) := by
      simpa [chunkConcat, List.append_assoc] using
        chunkConcat_mapChunk_done (deltas.filterMap id)
          (concatStrings (deltas.filterMap id)) mem sk
    rw [hcc]
    exact List.getLast?_concat _

/-- C3 witness: concrete dispatched stream over three deltas, one of
them empty. -/
theorem C3_witness :
    Table.lookup tK (chatKey "k") = some (mkChatData reqK "ts") ∧
    ∃ evs mem sk,
      (chat_stream [] tK "k" (Upstream.ok [some "a", none, some "b"])).result
        = .streamed evs ∧
      evs.filterMap Event.chunkContent = [some "a", none, some "b"].filterMap id ∧
      evs.getLast? = some (Event.done (chunkConcat evs) mem sk) :=
  ⟨rfl, C3_chunk_ordering_and_reconstruction [] tK "k" (mkChatData reqK "ts")
    [some "a", none, some "b"] (by decide) rfl⟩

/-- C4: every event stream produced for a present correlation key ends
with exactly one terminal event (done or error) and no event of any
kind follows it. -/
theorem C4_terminal_event_exclusivity (scientists : List (String × Scientist))
    (t : Table) (rid : String) (data : ChatData) (u : Upstream)
    (h1 : rid ≠ "") (h2 : Table.lookup t (chatKey rid) = some data) :
    ∃ evs pre e,
      (chat_stream scientists t rid u).result = .streamed evs ∧
      evs = pre ++ [e] ∧
      (∀ x ∈ pre, x.isTerminal = false) ∧
      e.isTerminal = true := by
  have hp := chat_stream_present scientists t rid u data h1 h2
  cases u with
  | ok deltas =>
      obtain ⟨s1, s2, mem, sk, he⟩ :=
        generate_response_ok_events scientists (dispatchedTable t rid data) rid
          (dispatchedHistory data) data.api_state deltas
      refine ⟨_, [Event.thinking s1, Event.thinking s2] ++
          (deltas.filterMap id).map Event.chunk,
        Event.done (concatStrings (deltas.filterMap id)) mem sk, ?_, rfl, ?_, rfl⟩
      · rw [hp, he]
      · intro x hx
        rcases List.mem_append.mp hx with hx | hx
        · simp at hx
          rcases hx with rfl | rfl <;> rfl
        · exact mem_mapChunk_not_terminal _ _ hx
  | fail e =>
      obtain ⟨s1, s2, he⟩ :=
        generate_response_fail_events scientists (dispatchedTable t rid data) rid
          (dispatchedHistory data) data.api_state e
      refine ⟨_, [Event.thinking s1, Event.thinking s2],
        Event.error (handle_api_error e), ?_, rfl, ?_, rfl⟩
      · rw [hp, he]
        rfl
      · intro x hx
        simp at hx
        rcases hx with rfl | rfl <;> rfl

/-- C4 witness: concrete dispatched stream with an upstream rate-limit
failure. -/
theorem C4_witness :
    Table.lookup tK (chatKey "k") = some (mkChatData reqK "ts") ∧
    ∃ evs pre e,
      (chat_stream [] tK "k" (Upstream.fail ApiError.rate_limit)).result
        = .streamed evs ∧
      evs = pre ++ [e] ∧
      (∀ x ∈ pre, x.isTerminal = false) ∧
      e.isTerminal = true :=
  ⟨rfl, C4_terminal_event_exclusivity [] tK "k" (mkChatData reqK "ts")
    (Upstream.fail ApiError.rate_limit) (by decide) rfl⟩

/-- C5: a stream request whose correlation key has no pending entry is
answered with the single invalid-or-expired error response, no event
stream is opened, and the table is unchanged. -/
theorem C5_unknown_key_rejected (scientists : List (String × Scientist))
    (t : Table) (rid : String) (u : Upstream)
    (h : Table.lookup t (chatKey rid) = none) :
    chat_stream scientists t rid u =
      { result := .rejected "‚ö†Ô∏è Invalid or expired request. Please try again"
        tableAtStreamStart := t
        finalTable := t } :=
  chat_stream_absent scientists t rid u h

/-- C5 witness: dispatch of a never-staged key against the staged
table tK. -/
theorem C5_witness :
    Table.lookup tK (chatKey "unknown") = none ∧
    chat_stream [] tK "unknown" (Upstream.ok []) =
      { result := .rejected "‚ö†Ô∏è Invalid or expired request. Please try again"
        tableAtStreamStart := tK
        finalTable := tK } :=
  ⟨rfl, C5_unknown_key_rejected [] tK "unknown" (Upstream.ok []) rfl⟩

/-- C6: the eviction action removes the pending entry for its own
correlation key when still present, leaves every other key untouched,
and is a harmless no-op (total, no error) when the entry has already
been removed. -/
theorem C6_eviction_safety (t : Table) (rid : String) :
    Table.lookup (cleanup_request_data t rid) (chatKey rid) = none ∧
    (∀ k, k ≠ chatKey rid →
      Table.lookup (cleanup_request_data t rid) k = Table.lookup t k) ∧
    (Table.lookup t (chatKey rid) = none → cleanup_request_data t rid = t) := by
  refine ⟨?_, ?_, ?_⟩
  · simp only [cleanup_request_data]
    exact lookup_eraseIf_self t (chatKey rid)
  · intro k hk
    by_cases hc : t.contains (chatKey rid) = true
    · simp [cleanup_request_data, hc, lookup_erase_ne t (chatKey rid) k hk]
    · have hc' : t.contains (chatKey rid) = false := by simpa using hc
      simp [cleanup_request_data, hc']
  · intro h
    have hc : t.contains (chatKey rid) = false := by simp [Table.contains, h]
    simp [cleanup_request_data, hc]

/-- C6 witness: eviction of the staged key k, a no-op eviction for a
different key leaving k untouched, and a no-op on the empty table. -/
theorem C6_witness :
    Table.lookup (cleanup_request_data tK "k") (chatKey "k") = none ∧
    Table.lookup (cleanup_request_data tK "zzz") (chatKey "k")
      = Table.lookup tK (chatKey "k") ∧
    cleanup_request_data [] "k" = [] :=
  ⟨(C6_eviction_safety tK "k").1,
   (C6_eviction_safety tK "zzz").2.1 (chatKey "k") (by decide),
   (C6_eviction_safety [] "k").2.2 rfl⟩

/-- C7: a submission with a missing or unusable configuration is
answered with the structured restart error, inserts nothing into the
pending table, and arms no eviction timer. -/
theorem C7_invalid_configuration (t : Table) (req : ChatRequest) (now : Nat)
    (ts : String) (h : stateValid req.api_state = false) :
    chat t req now ts =
      { status := .error "‚ö†Ô∏è Please restart the system"
        table := t
        timer := none } := by
  simp [chat, h]

/-- C7 witness: a concrete submission with a missing configuration
dict. -/
theorem C7_witness :
    stateValid reqInvalidState.api_state = false ∧
    chat [] reqInvalidState 0 "t0" =
      { status := .error "‚ö†Ô∏è Please restart the system"
        table := []
        timer := none } :=
  ⟨rfl, C7_invalid_configuration [] reqInvalidState 0 "t0" rfl⟩

/-- C8 counterexample: the claim says no raw exception text ever
appears in a delivered event.  Dispatching with an unrecognized
upstream exception whose text is ZeroDivisionError: division by zero
emits an error event embedding that text verbatim. -/
theorem C8_counterexample :
    (chat_stream [] tK "k"
      (Upstream.fail (ApiError.other "ZeroDivisionError: division by zero"))).result =
      DispatchResult.streamed
        [Event.thinking "üí≠ Analyzing and preparing response...",
         Event.thinking "üí≠ Processing your question...",
         Event.error "‚ö†Ô∏è API error: ZeroDivisionError: division by zero"] ∧
    strContains "‚ö†Ô∏è API error: ZeroDivisionError: division by zero"
      "ZeroDivisionError: division by zero" = true :=
  ⟨rfl, by decide⟩

/-- C8 (amended): every upstream failure is contained and surfaced as a
single terminal structured error event carrying the handle_api_error
message — no exception crosses the boundary and no stack trace is
emitted — but for provider status errors and unrecognized exceptions
that message embeds the exception text itself. -/
theorem C8_structured_failure (scientists : List (String × Scientist))
    (t : Table) (rid : String) (data : ChatData) (e : ApiError)
    (h1 : rid ≠ "") (h2 : Table.lookup t (chatKey rid) = some data) :
    ∃ evs,
      (chat_stream scientists t rid (Upstream.fail e)).result = .streamed evs ∧
      evs.getLast? = some (Event.error (handle_api_error e)) ∧
      ∀ x ∈ evs, x.isTerminal = true → x = Event.error (handle_api_error e) := by
  have hp := chat_stream_present scientists t rid (Upstream.fail e) data h1 h2
  obtain ⟨s1, s2, he⟩ := generate_response_fail_events scientists
    (dispatchedTable t rid data) rid (dispatchedHistory data) data.api_state e
  refine ⟨[Event.thinking s1, Event.thinking s2,
    Event.error (handle_api_error e)], ?_, rfl, ?_⟩
  · rw [hp, he]
  · intro x hx hterm
    simp at hx
    rcases hx with rfl | rfl | rfl
    · simp [Event.isTerminal] at hterm
    · simp [Event.isTerminal] at hterm
    · rfl

/-- C8 witness: concrete upstream failure against the staged table. -/
theorem C8_witness :
    Table.lookup tK (chatKey "k") = some (mkChatData reqK "ts") ∧
    ∃ evs,
      (chat_stream [] tK "k" (Upstream.fail (ApiError.other "boom"))).result
        = .streamed evs ∧
      evs.getLast? = some (Event.error (handle_api_error (ApiError.other "boom"))) ∧
      ∀ x ∈ evs, x.isTerminal = true →
        x = Event.error (handle_api_error (ApiError.other "boom")) :=
  ⟨rfl, C8_structured_failure [] tK "k" (mkChatData reqK "ts")
    (ApiError.other "boom") (by decide) rfl⟩

/-- C9 counterexample: staging reqB under the key k that already holds
the pending request of reqK silently replaces the first payload with
the second, contradicting the claim that staging never silently
replaces one pending request with another. -/
theorem C9_counterexample :
    Table.lookup tK (chatKey "k") = some (mkChatData reqK "ts") ∧
    Table.lookup (chat tK reqB 6 "ts2").table (chatKey "k")
      = some (mkChatData reqB "ts2") ∧
    mkChatData reqB "ts2" ≠ mkChatData reqK "ts" ∧
    Table.keys (chat tK reqB 6 "ts2").table = [chatKey "k"] :=
  ⟨rfl, rfl, by decide, rfl⟩

/-- C9 (amended): at most one pending entry per correlation key is
maintained, because staging writes with dict-assignment semantics: it
preserves key uniqueness, and when the key already exists the prior
entry is silently overwritten (keys can be reused), the subsequent
lookup yielding the newly staged payload. -/
theorem C9_key_overwrite (t : Table) (req : ChatRequest) (now : Nat) (ts : String)
    (h0 : (Table.keys t).Nodup) (h1 : stateValid req.api_state = true)
    (h2 : req.history.length < MAX_HISTORY * 2) :
    (Table.keys (chat t req now ts).table).Nodup ∧
    Table.lookup (chat t req now ts).table (chatKey (genRequestId req now)) =
      some (mkChatData req ts) := by
  have h2' : ¬ MAX_HISTORY * 2 ≤ req.history.length := by omega
  rw [chat_success t req now ts h1 h2']
  exact ⟨keys_setEntry_nodup t _ _ h0, lookup_setEntry_self t _ _⟩

/-- C9 witness: restaging under the occupied key k. -/
theorem C9_witness :
    (Table.keys (chat tK reqB 6 "ts2").table).Nodup ∧
    Table.lookup (chat tK reqB 6 "ts2").table (chatKey (genRequestId reqB 6)) =
      some (mkChatData reqB "ts2") :=
  C9_key_overwrite tK reqB 6 "ts2" (by decide) rfl (by decide)

/-- C10: the dispatch-time append of the new user message is skipped
exactly when the last history element is an image-bearing turn or a
string equal to the new text, and appends the new message otherwise;
consequently the history passed onward ends with the user turn and
applying the same submission again changes nothing. -/
theorem C10_dispatch_append (history : List Turn) (txt : String)
    (img : Option ImageData) :
    (∀ te pv fn, history.getLast? = some (Turn.image te pv fn) →
      appendUserMessage history txt img = history) ∧
    (history.getLast? = some (Turn.text txt) →
      appendUserMessage history txt img = history) ∧
    ((∀ te pv fn, history.getLast? ≠ some (Turn.image te pv fn)) →
      history.getLast? ≠ some (Turn.text txt) →
      appendUserMessage history txt img = history ++ [newUserMessage txt img]) ∧
    (∃ last, (appendUserMessage history txt img).getLast? = some last ∧
      ((∃ te pv fn, last = Turn.image te pv fn) ∨ last = Turn.text txt)) ∧
    appendUserMessage (appendUserMessage history txt img) txt img =
      appendUserMessage history txt img := by
  refine ⟨?_, ?_, ?_, appendUserMessage_getLast history txt img,
    appendUserMessage_idem history txt img⟩
  · intro te pv fn h
    simp [appendUserMessage, h]
  · intro h
    simp [appendUserMessage, h]
  · intro himg htxt
    cases hl : history.getLast? with
    | none => simp [appendUserMessage, hl]
    | some last0 =>
        cases last0 with
        | image te pv fn => exact absurd hl (himg te pv fn)
        | text s =>
            have hs : ¬ s = txt := by
              intro hh
              exact htxt (by rw [hl, hh])
            simp [appendUserMessage, hl, hs]

/-- C10 witness: image-last skip, equal-string skip, and the appending
case at concrete inputs. -/
theorem C10_witness :
    appendUserMessage [Turn.image "q" "p" "f"] "hello" none
      = [Turn.image "q" "p" "f"] ∧
    appendUserMessage [Turn.text "hello"] "hello" none = [Turn.text "hello"] ∧
    appendUserMessage [Turn.text "prior"] "hello" none
      = [Turn.text "prior", Turn.text "hello"] :=
  ⟨(C10_dispatch_append [Turn.image "q" "p" "f"] "hello" none).1 "q" "p" "f" rfl,
   (C10_dispatch_append [Turn.text "hello"] "hello" none).2.1 rfl,
   by
     have h3 := (C10_dispatch_append [Turn.text "prior"] "hello" none).2.2.1
       (by intro te pv fn h; simp at h) (by decide)
     simpa [newUserMessage] using h3⟩

end Plama
